import Mathlib

/-!
Shallow embedding of the monero-update verifier (src/src/updater.cpp) in Lean 4,
with theorems settling the claims about its behavior.  Pure state transformations
are modelled as Lean functions; the external collaborators (DNS resolver, HTTP,
SHA-256, gpgme) appear as explicit inputs describing their outcomes.
-/

/-- Tri-state verdict type, from updater.h as used throughout updater.cpp. -/
inductive TriState
  | TriUnknown
  | TriTrue
  | TriFalse
deriving DecidableEq, BEq

/-- FSM state enumeration, from the states table in updater.cpp. -/
inductive State
  | StateNone
  | StateInit
  | StateQueryDNS
  | StateDNSFailed
  | StateCheckVersion
  | StateUpToDate
  | StateBackInTime
  | StateNoUpdateInfoFound
  | StateDownload
  | StateDownloadFailed
  | StateCheckHash
  | StateBadHash
  | StateImportPubkeys
  | StatePubkeyImportFailed
  | StateFetchGitianSigs
  | StateVerifyGitianSignatures
  | StateNoGitianSigs
  | StateNotEnoughGitianSigs
  | StateBadGitianSigs
  | StateValidUpdate
deriving DecidableEq, BEq

/-- Split a character list at every occurrence of a separator, keeping empty
fields, as boost::split does. -/
def split_on_list (sep : Char) : List Char → List (List Char)
  | [] => [[]]
  | c :: cs =>
    if c = sep then [] :: split_on_list sep cs
    else
      match split_on_list sep cs with
      | [] => [[c]]
      | f :: rest => (c :: f) :: rest

/-- Split a string at every occurrence of a separator character. -/
def split_on (sep : Char) (s : String) : List String :=
  (split_on_list sep s.toList).map String.mk

/-- Whether the second string ends with the first. -/
def ends_with (suffix s : String) : Bool :=
  suffix.toList.isSuffixOf s.toList

/-- Leading-digits numeric parse of a version component (atoi on a component). -/
def atoiNat (s : String) : Nat :=
  (s.toList.takeWhile Char.isDigit).foldl (fun a c => a * 10 + (c.toNat - 48)) 0

/-- Dotted version string to its list of numeric components. -/
def verComponents (s : String) : List Nat :=
  (split_on '.' s).map atoiNat

/-- Comparison of the zero-padded empty list against remaining components: the
first positive remaining component makes the other side larger. -/
def verGoEmpty : List Nat → Int
  | [] => 0
  | y :: ys => if 0 < y then -1 else verGoEmpty ys

/-- Component-wise comparison of two component lists, shorter list zero-padded. -/
def verGo : List Nat → List Nat → Int
  | [], ys => verGoEmpty ys
  | x :: xs, [] => if 0 < x then 1 else verGo xs []
  | x :: xs, y :: ys => if x < y then -1 else if y < x then 1 else verGo xs ys

/-- Modelled from the spec: `tools::vercmp` (common/vercmp, not under src/) is a
dotted-numeric comparator: component-wise integer compare, the shorter component
vector treated as zero-padded. -/
def vercmp (a b : String) : Int :=
  verGo (verComponents a) (verComponents b)

/-- Per-domain DNS TXT query result, from updater.h / load_txt_records_from_dns. -/
structure dns_query_result_t where
  records : List String
  avail : Bool
  valid : Bool
deriving DecidableEq

/-- The per-domain usability condition tested in load_txt_records_from_dns:
DNSSEC available, DNSSEC valid, and a nonempty record list. -/
def dns_result_usable (r : dns_query_result_t) : Bool :=
  r.avail && r.valid && !r.records.isEmpty

/-- Modelled from the spec: `tools::dns_utils::dns_records_match` (common/dns_utils,
not under src/) compares two record lists under set equality ignoring element order. -/
def dns_records_match (a b : List String) : Bool :=
  a.all (fun x => b.contains x) && b.all (fun x => a.contains x)

/-- The good-records search loop of load_txt_records_from_dns: the first index i
whose result is usable and whose records match some later result's records; only
the validity of index i is tested, not that of the matching later index j. -/
def find_good_records : List dns_query_result_t → Option (List String)
  | [] => none
  | r :: rest =>
    if dns_result_usable r && rest.any (fun r2 => dns_records_match r.records r2.records) then
      some r.records
    else
      find_good_records rest

/-- The decision part of Updater::load_txt_records_from_dns: returns the final
dnsValid verdict and the good records list (empty on failure). -/
def load_txt_records_from_dns (results : List dns_query_result_t) : TriState × List String :=
  if (results.filter dns_result_usable).length < 2 then
    (TriState.TriFalse, [])
  else
    match find_good_records results with
    | none => (TriState.TriFalse, [])
    | some g => (TriState.TriTrue, g)

/-- The hash-field acceptance test of Updater::process_version, exactly as the
source writes it: a record is rejected only when the field length differs from 64
AND the field is not entirely alphanumeric. -/
def hash_field_ok (f3 : String) : Bool :=
  !(decide (f3.length ≠ 64) && !(f3.toList.all Char.isAlphanum))

/-- The per-record filter of Updater::process_version: split on colons, require
exactly 4 fields, matching software and buildtag, and an accepted hash field;
returns the (version, hash) fields of a surviving record. -/
def parse_update_record (software buildtag record : String) : Option (String × String) :=
  match split_on ':' record with
  | [f0, f1, f2, f3] =>
    if software = f0 && buildtag = f1 then
      if hash_field_ok f3 then some (f2, f3) else none
    else none
  | _ => none

/-- The record loop of Updater::process_version. Arguments: remaining records,
the found flag, the stored version and hash. Returns the final version, hash,
and whether the loop ended by the ambiguity early-return (version cleared). -/
def process_version_loop (software buildtag : String) :
    List String → Bool → String → String → String × String × Bool
  | [], _, version, hash => (version, hash, false)
  | record :: rest, found, version, hash =>
    match parse_update_record software buildtag record with
    | none => process_version_loop software buildtag rest found version hash
    | some (f2, f3) =>
      if found then
        let cmp := vercmp version f2
        if 0 < cmp then
          process_version_loop software buildtag rest found version hash
        else if cmp = 0 ∧ hash ≠ f3 then
          ("", hash, true)
        else
          process_version_loop software buildtag rest true f2 f3
      else
        process_version_loop software buildtag rest true f2 f3

/-- Updater::process_version: final selected version, and the expected hash
update (none when the version is empty, in which case expected_hash is not set). -/
def process_version (software buildtag : String) (records : List String) :
    String × Option String :=
  let r := process_version_loop software buildtag records false "" ""
  (r.1, if r.1 = "" then none else some r.2.1)

/-- The surviving (version, hash) pairs of a record list under process_version's
per-record filter. -/
def surviving_records (software buildtag : String) (records : List String) :
    List (String × String) :=
  records.filterMap (parse_update_record software buildtag)

/-- Outcome of the gpgme calls made by Updater::verify_gitian_signature for one
(contents, signature) pair: whether each data-buffer creation failed, whether the
verify operation itself failed, whether a result with signatures was returned, and
the reported signature status and summary bits. -/
structure gpgme_verify_outcome where
  contents_data_err : Bool
  signature_data_err : Bool
  verify_err : Bool
  has_result : Bool
  status : Nat
  summary_red : Bool
  summary_valid : Bool
deriving DecidableEq

/-- Updater::verify_gitian_signature: the tri-state verdict computed from the
gpgme outcome, following the source's if-chain in order. -/
def verify_gitian_signature (r : gpgme_verify_outcome) : TriState :=
  if r.contents_data_err then TriState.TriUnknown
  else if r.signature_data_err then TriState.TriUnknown
  else if r.verify_err then TriState.TriFalse
  else if !r.has_result then TriState.TriFalse
  else if r.status ≠ 0 then TriState.TriUnknown
  else if r.summary_red then TriState.TriFalse
  else if r.summary_valid then TriState.TriTrue
  else TriState.TriTrue

/-- Hex digit table from Updater::check_hash (the digits array). -/
def hexdigit (n : Nat) : Char :=
  "0123456789abcdef".toList.getD n '0'

/-- The hex rendering loop of Updater::check_hash: 32 bytes to 64 lowercase hex
characters (bytes taken modulo 256, mirroring the uint8_t domain). -/
def sha256_hex (file_hash : List Nat) : String :=
  String.mk (((List.range 32).map (fun i =>
    let b := file_hash.getD i 0 % 256
    [hexdigit (b / 16), hexdigit (b % 16)])).flatten)

/-- Updater::check_hash: given the SHA-256 collaborator's outcome (none on error)
and the expected hash, returns the final hashValid verdict and whether the
validUpdateReady event is emitted. -/
def check_hash (sha : Option (List Nat)) (expected_hash : String) : TriState × Bool :=
  match sha with
  | none => (TriState.TriFalse, false)
  | some file_hash =>
    if sha256_hex file_hash ≠ expected_hash then (TriState.TriFalse, false)
    else (TriState.TriTrue, true)

/-- Hex character set of the assertion-line regex in Updater::fetch_gitian_sigs. -/
def is_hex_char (c : Char) : Bool :=
  c.isDigit || ('a' ≤ c && c ≤ 'f') || ('A' ≤ c && c ≤ 'F')

/-- One line of an assertion file matched against the regex
"([abcdefABCDEF0123456789]+)  filename$": the line must end with two spaces and
the filename, preceded immediately by a nonempty run of hex characters, whose
maximal such run is the captured hash. -/
def assert_line_hash (filename line : String) : Option String :=
  if ends_with (String.append "  " filename) line then
    let pre := line.toList.take (line.toList.length - (String.append "  " filename).toList.length)
    let run := (pre.reverse.takeWhile is_hex_char).reverse
    if run.isEmpty then none else some (String.mk run)
  else none

/-- The line scan of Updater::fetch_gitian_sigs over an assertion file's contents:
split on newlines, keep the hash of the last matching line. -/
def assert_file_hash (filename contents : String) : Option String :=
  (split_on '\n' contents).foldl
    (fun acc line =>
      match assert_line_hash filename line with
      | some h => some h
      | none => acc) none

/-- Per-user inputs to one iteration of the signature-quorum loop: whether the
assertion file and its detached signature were fetched, the assertion contents,
and the engine's verification verdict and reported fingerprint. -/
structure gitian_user_result where
  user : String
  assert_fetched : Bool
  assert_contents : String
  sig_fetched : Bool
  verify_res : TriState
  fingerprint : String
deriving DecidableEq

/-- Counter state of the signature-quorum loop: the Status counters mutated by
the loop plus the seen-fingerprints map keys. -/
structure GitianLoopState where
  validGitianSigs : Nat
  processedGitianSigs : Nat
  bad_gitian_signature_found : Bool
  fingerprints : List String
deriving DecidableEq

/-- The acceptance condition of one loop iteration in Updater::fetch_gitian_sigs:
both fetches succeeded, the signature verified TriTrue, the fingerprint was not
seen before, is among the imported fingerprints, and the assertion file carries
the expected hash for the artifact filename. -/
def gitian_sig_accepted (imported : List String) (expected_hash filename : String)
    (seen : List String) (u : gitian_user_result) : Bool :=
  u.assert_fetched && u.sig_fetched && u.verify_res == TriState.TriTrue
    && !(seen.contains u.fingerprint) && imported.contains u.fingerprint
    && (assert_file_hash filename u.assert_contents == some expected_hash)

/-- The bad-signature condition of one loop iteration: both fetches succeeded and
the signature verified TriFalse. -/
def gitian_sig_bad (u : gitian_user_result) : Bool :=
  u.assert_fetched && u.sig_fetched && u.verify_res == TriState.TriFalse

/-- One full iteration of the per-user loop of Updater::fetch_gitian_sigs. -/
def gitian_step (imported : List String) (expected_hash filename : String)
    (st : GitianLoopState) (u : gitian_user_result) : GitianLoopState :=
  let acc := gitian_sig_accepted imported expected_hash filename st.fingerprints u
  { validGitianSigs := st.validGitianSigs + (if acc then 1 else 0)
    processedGitianSigs := st.processedGitianSigs + 1
    bad_gitian_signature_found := st.bad_gitian_signature_found || gitian_sig_bad u
    fingerprints := if acc then u.fingerprint :: st.fingerprints else st.fingerprints }

/-- The whole per-user loop of Updater::fetch_gitian_sigs, starting from the reset
counters (validGitianSigs = 0, processedGitianSigs = 0, no bad signature, empty
fingerprint map). -/
def fetch_gitian_sigs_loop (imported : List String) (expected_hash filename : String)
    (users : List gitian_user_result) : GitianLoopState :=
  users.foldl (gitian_step imported expected_hash filename) ⟨0, 0, false, []⟩

/-- MIN_GITIAN_SIGS from updater.cpp. -/
def MIN_GITIAN_SIGS : Nat := 2

/-- The success flag computed at the end of Updater::fetch_gitian_sigs. -/
def gitian_verify_sigs_success_flag (st : GitianLoopState) : Bool :=
  decide (MIN_GITIAN_SIGS ≤ st.validGitianSigs) && !st.bad_gitian_signature_found

/-- The sequence of (validGitianSigs, processedGitianSigs) pairs observable while
the per-user loop runs: inside an accepting iteration validGitianSigs is
incremented first (and published), and processedGitianSigs is incremented at the
iteration's end. -/
def gitian_counter_snapshots (imported : List String) (expected_hash filename : String) :
    GitianLoopState → List gitian_user_result → List (Nat × Nat)
  | _, [] => []
  | st, u :: rest =>
    let acc := gitian_sig_accepted imported expected_hash filename st.fingerprints u
    let st' := gitian_step imported expected_hash filename st u
    (if acc then [(st.validGitianSigs + 1, st.processedGitianSigs)] else [])
      ++ (st'.validGitianSigs, st'.processedGitianSigs)
      :: gitian_counter_snapshots imported expected_hash filename st' rest

/-- The loop states at iteration boundaries (before the loop and after each full
iteration). -/
def gitian_boundary_states (imported : List String) (expected_hash filename : String) :
    GitianLoopState → List gitian_user_result → List GitianLoopState
  | st, [] => [st]
  | st, u :: rest =>
    st :: gitian_boundary_states imported expected_hash filename
      (gitian_step imported expected_hash filename st u) rest

/-- The Status fields read by the polling switch of Updater::updater_thread. -/
structure UpdaterPoll where
  state : State
  dns_query_done : Bool
  good_dns_records : List String
  version_check_done : Bool
  version : String
  current_version : String
  gitian_pubkeys_import_done : Bool
  gitian_pubkeys_import_success : Bool
  gitian_verify_sigs_done : Bool
  gitian_verify_sigs_success : Bool
  bad_gitian_signature_found : Bool
  download_done : Bool
  download_success : Bool
  hashValid : TriState
deriving DecidableEq

/-- One poll of the switch in Updater::updater_thread: the next state requested
from the current state and stage flags, or none when the stage is still pending. -/
def updater_thread_step (u : UpdaterPoll) : Option State :=
  match u.state with
  | State.StateQueryDNS =>
    if !u.dns_query_done then none
    else if u.good_dns_records.isEmpty then some State.StateDNSFailed
    else some State.StateCheckVersion
  | State.StateCheckVersion =>
    if !u.version_check_done then none
    else if u.version = "" then some State.StateNoUpdateInfoFound
    else
      let cmp := vercmp u.version u.current_version
      if 0 < cmp then some State.StateImportPubkeys
      else if cmp < 0 then some State.StateBackInTime
      else some State.StateUpToDate
  | State.StateImportPubkeys =>
    if !u.gitian_pubkeys_import_done then none
    else if u.gitian_pubkeys_import_success then some State.StateFetchGitianSigs
    else some State.StatePubkeyImportFailed
  | State.StateVerifyGitianSignatures =>
    if !u.gitian_verify_sigs_done then none
    else if u.gitian_verify_sigs_success then some State.StateDownload
    else if !u.bad_gitian_signature_found then some State.StateNotEnoughGitianSigs
    else some State.StateBadGitianSigs
  | State.StateDownload =>
    if !u.download_done then none
    else if u.download_success then some State.StateCheckHash
    else some State.StateDownloadFailed
  | State.StateCheckHash =>
    if u.hashValid = TriState.TriTrue then some State.StateValidUpdate
    else if u.hashValid = TriState.TriFalse then some State.StateBadHash
    else none
  | _ => none

/-- The two counter fields touched by Updater::setMinValidGitianSigs. -/
structure GitianCounters where
  validGitianSigs : Nat
  minValidGitianSigs : Nat
deriving DecidableEq

/-- Updater::setMinValidGitianSigs: updates the minValidGitianSigs field, then
emits minValidGitianSigsChanged whose payload is, as the source writes it, the
validGitianSigs field. Returns the new state and the emitted payload. -/
def setMinValidGitianSigs (u : GitianCounters) (sigs : Nat) : GitianCounters × Nat :=
  let u' : GitianCounters := { u with minValidGitianSigs := sigs }
  (u', u'.validGitianSigs)

/-- Updater::select: on "gui" or "cli" sets software and requests QueryDNS as the
next state; any other string has no effect. The source consults the current state
nowhere, so the result is the same in every state. -/
def select (s : String) (_st : State) : Option (String × State) :=
  if s = "gui" then some ("monero-gui", State.StateQueryDNS)
  else if s = "cli" then some ("monero", State.StateQueryDNS)
  else none

/-- Whether the good-records search of load_txt_records_from_dns succeeds at
index i: the result at i is usable and some strictly later result has matching
records (the later result's availability and validity are not tested). -/
def good_records_at (results : List dns_query_result_t) (i : Nat) : Bool :=
  match results.drop i with
  | [] => false
  | r :: rest => dns_result_usable r && rest.any (fun r2 => dns_records_match r.records r2.records)

/-- The record list of the result at index i. -/
def records_at (results : List dns_query_result_t) (i : Nat) : List String :=
  ((results.drop i).headD ⟨[], false, false⟩).records

/-- The driver poll performed in state VerifyGitianSignatures once the loop has
finished: the done flag is set, and the success and bad-signature flags are those
computed by the loop. -/
def verify_sigs_poll (ps : UpdaterPoll) (st : GitianLoopState) : Option State :=
  updater_thread_step { ps with
    state := State.StateVerifyGitianSignatures
    gitian_verify_sigs_done := true
    gitian_verify_sigs_success := gitian_verify_sigs_success_flag st
    bad_gitian_signature_found := st.bad_gitian_signature_found }

/-- Invariant of the signature-quorum loop state: validGitianSigs counts exactly
the distinct accepted fingerprints and never exceeds processedGitianSigs. -/
def gitian_invariant (st : GitianLoopState) : Prop :=
  st.validGitianSigs = st.fingerprints.length ∧ st.fingerprints.Nodup ∧
    st.validGitianSigs ≤ st.processedGitianSigs

/-- Comparing a component list with itself yields 0. -/
theorem verGo_refl (a : List Nat) : verGo a a = 0 := by
  induction a with
  | nil => simp [verGo, verGoEmpty]
  | cons x xs ih => simp [verGo, ih]

/-- Comparing any component list with the empty list is nonnegative. -/
theorem verGo_nil_right (a : List Nat) : 0 ≤ verGo a [] := by
  induction a with
  | nil => simp [verGo, verGoEmpty]
  | cons x xs ih =>
    by_cases hx : 0 < x
    · simp [verGo, hx]
    · simpa [verGo, hx] using ih

/-- Comparing the empty list on the left is the negation of the right-empty case. -/
theorem verGoEmpty_antisymm (ys : List Nat) : verGoEmpty ys = - verGo ys [] := by
  induction ys with
  | nil => simp [verGo, verGoEmpty]
  | cons y ys ih =>
    by_cases hy : 0 < y
    · simp [verGo, verGoEmpty, hy]
    · simpa [verGo, verGoEmpty, hy] using ih

/-- verGo is antisymmetric as a comparator. -/
theorem verGo_antisymm (a b : List Nat) : verGo a b = - verGo b a :=
  match a, b with
  | [], ys => by simpa [verGo] using verGoEmpty_antisymm ys
  | x :: xs, [] => by
    have h := verGoEmpty_antisymm (x :: xs)
    simp [verGo] at h ⊢
    omega
  | x :: xs, y :: ys => by
    rcases Nat.lt_trichotomy x y with h | h | h
    · simp [verGo, h, Nat.lt_asymm h]
    · subst h
      simpa [verGo] using verGo_antisymm xs ys
    · simp [verGo, h, Nat.lt_asymm h]

/-- The nonnegative (greater-or-equal) relation induced by verGo is transitive. -/
theorem verGo_ge_trans (a b c : List Nat) (hab : 0 ≤ verGo a b) (hbc : 0 ≤ verGo b c) :
    0 ≤ verGo a c :=
  match a, b, c with
  | a, _, [] => verGo_nil_right a
  | [], [], _ :: _ => hbc
  | x :: xs, [], z :: zs => by
    have hz : ¬ 0 < z := by
      by_contra h
      simp [verGo, verGoEmpty, h] at hbc
    have hz0 : z = 0 := by omega
    subst hz0
    have hbc' : 0 ≤ verGo ([] : List Nat) zs := by
      simpa [verGo, verGoEmpty] using hbc
    by_cases hx : 0 < x
    · simp [verGo, hx]
    · have hx0 : x = 0 := by omega
      subst hx0
      simpa [verGo] using verGo_ge_trans xs [] zs (verGo_nil_right xs) hbc'
  | [], y :: ys, z :: zs => by
    have hy : ¬ 0 < y := by
      by_contra h
      simp [verGo, verGoEmpty, h] at hab
    have hy0 : y = 0 := by omega
    subst hy0
    have hab' : 0 ≤ verGo ([] : List Nat) ys := by
      simpa [verGo, verGoEmpty] using hab
    have hz : ¬ 0 < z := by
      by_contra h
      simp [verGo, h] at hbc
    have hz0 : z = 0 := by omega
    subst hz0
    have hbc' : 0 ≤ verGo ys zs := by simpa [verGo] using hbc
    simpa [verGo, verGoEmpty, hz] using verGo_ge_trans [] ys zs hab' hbc'
  | x :: xs, y :: ys, z :: zs => by
    rcases Nat.lt_trichotomy x y with hxy | hxy | hxy
    · simp [verGo, hxy] at hab
    · subst hxy
      have hab' : 0 ≤ verGo xs ys := by simpa [verGo] using hab
      rcases Nat.lt_trichotomy x z with hxz | hxz | hxz
      · simp [verGo, hxz] at hbc
      · subst hxz
        have hbc' : 0 ≤ verGo ys zs := by simpa [verGo] using hbc
        simpa [verGo] using verGo_ge_trans xs ys zs hab' hbc'
      · simp [verGo, hxz, Nat.lt_asymm hxz]
    · rcases Nat.lt_trichotomy y z with hyz | hyz | hyz
      · simp [verGo, hyz] at hbc
      · subst hyz
        simp [verGo, hxy, Nat.lt_asymm hxy]
      · have hzx : z < x := Nat.lt_trans hyz hxy
        simp [verGo, hzx, Nat.lt_asymm hzx]

/-- vercmp compares any version with itself as equal. -/
theorem vercmp_refl (a : String) : vercmp a a = 0 :=
  verGo_refl (verComponents a)

/-- vercmp is antisymmetric. -/
theorem vercmp_antisymm (a b : String) : vercmp a b = - vercmp b a :=
  verGo_antisymm (verComponents a) (verComponents b)

/-- The greater-or-equal relation of vercmp is transitive. -/
theorem vercmp_ge_trans (a b c : String) (hab : 0 ≤ vercmp a b) (hbc : 0 ≤ vercmp b c) :
    0 ≤ vercmp a c :=
  verGo_ge_trans (verComponents a) (verComponents b) (verComponents c) hab hbc

/-- A nonpositive vercmp flips to a nonnegative one with the arguments swapped. -/
theorem vercmp_ge_of_not_lt (a b : String) (h : ¬ 0 < vercmp a b) : 0 ≤ vercmp b a := by
  have := vercmp_antisymm b a
  omega

/-- C4: after the hash-check stage, hashValid is TriTrue exactly when the SHA-256
of the downloaded file, rendered as lowercase hex, equals expected_hash
byte-for-byte, and the validUpdateReady event is emitted exactly in that success
case and never on mismatch or hashing error. -/
theorem C4_hash_check (sha : Option (List Nat)) (expected_hash : String) :
    ((check_hash sha expected_hash).1 = TriState.TriTrue ↔
      ∃ file_hash, sha = some file_hash ∧ sha256_hex file_hash = expected_hash) ∧
    ((check_hash sha expected_hash).2 = true ↔
      (check_hash sha expected_hash).1 = TriState.TriTrue) := by
  cases sha with
  | none => simp [check_hash]
  | some fh =>
    by_cases h : sha256_hex fh = expected_hash <;> simp [check_hash, h]

/-- C10: when the SHA-256 collaborator reports an error, the hash-check stage
fails closed: hashValid is set to TriFalse (never left TriUnknown, never
TriTrue), validUpdateReady is not emitted, and the driver leaves CheckHash into
BadHash. -/
theorem C10_hash_error_fail_closed (ps : UpdaterPoll) (expected_hash : String) :
    check_hash none expected_hash = (TriState.TriFalse, false) ∧
    updater_thread_step { ps with state := State.StateCheckHash, hashValid := TriState.TriFalse }
      = some State.StateBadHash := by
  exact ⟨rfl, rfl⟩

/-- C6 (code bug): the hash-field predicate of process_version, as the source
writes it, rejects a record only when the fourth field's length differs from 64
AND the field is not entirely alphanumeric; a 3-character alphanumeric hash field
therefore passes and the record is selected, contradicting the claim (and the
intent recorded in the spec) that any field not of 64 alphanumeric characters is
skipped. -/
theorem C6_hash_field_bug :
    hash_field_ok "abc" = true ∧
    "abc".length ≠ 64 ∧
    process_version "monero" "linux-x64" ["monero:linux-x64:0.18.1:abc"]
      = ("0.18.1", some "abc") := by
  refine ⟨by decide, by decide, by decide⟩

/-- C9 (code bug): setMinValidGitianSigs(2) on a state with validGitianSigs = 0
updates the minValidGitianSigs field to 2 as claimed, but the payload emitted
with minValidGitianSigsChanged is the validGitianSigs field (0), not the value
just written. -/
theorem C9_min_sigs_event_bug :
    setMinValidGitianSigs ⟨0, 0⟩ 2 = (⟨0, 2⟩, 0) ∧ (0 : Nat) ≠ 2 := by
  exact ⟨rfl, by decide⟩

/-- C8 counterexample: in state Download (which is not Init) the select("cli")
command still takes effect, setting software to "monero" and requesting the
transition to QueryDNS; the claim that select has an effect only in Init is
false of the code, which never consults the current state. -/
theorem C8_select_counterexample :
    select "cli" State.StateDownload = some ("monero", State.StateQueryDNS) ∧
    State.StateDownload ≠ State.StateInit := by
  exact ⟨rfl, by decide⟩

/-- C8 (amended): select("gui") and select("cli") set software and request the
transition to QueryDNS in every state, Init or not (the source has no state
guard, unlike retryDownload); any other argument has no effect in any state. -/
theorem C8_select_any_state (st : State) (s : String) :
    select "gui" st = some ("monero-gui", State.StateQueryDNS) ∧
    select "cli" st = some ("monero", State.StateQueryDNS) ∧
    (s ≠ "gui" → s ≠ "cli" → select s st = none) := by
  refine ⟨rfl, rfl, fun h1 h2 => ?_⟩
  simp [select, h1, h2]

/-- Witness for C8_select_any_state at state Download and the string "retry". -/
theorem C8_select_any_state_witness :
    select "gui" State.StateDownload = some ("monero-gui", State.StateQueryDNS) ∧
    select "cli" State.StateDownload = some ("monero", State.StateQueryDNS) ∧
    select "retry" State.StateDownload = none := by
  have h := C8_select_any_state State.StateDownload "retry"
  exact ⟨h.1, h.2.1, h.2.2 (by decide) (by decide)⟩

/-- C3 counterexample: a clean engine run (no errors, result present) reporting
status 0 with neither the RED nor the VALID summary bit makes
verify_gitian_signature return TriTrue, although the claim allows TriTrue only
when the VALID summary bit is reported. -/
theorem C3_verify_signature_counterexample :
    verify_gitian_signature ⟨false, false, false, true, 0, false, false⟩ = TriState.TriTrue ∧
    (⟨false, false, false, true, 0, false, false⟩ : gpgme_verify_outcome).summary_valid = false := by
  exact ⟨rfl, rfl⟩

/-- C3 (amended): a data-buffer creation failure yields TriUnknown; a failure of
the verify operation itself, or a missing result, yields TriFalse; when the
engine ran cleanly and produced a result, the verdict is TriTrue iff status = 0
and RED is not set (the VALID bit is not required), TriFalse iff status = 0 and
RED is set, and TriUnknown iff status is nonzero (even when RED is also set). -/
theorem C3_verify_signature (r : gpgme_verify_outcome) :
    (r.contents_data_err = true → verify_gitian_signature r = TriState.TriUnknown) ∧
    (r.contents_data_err = false → r.signature_data_err = true →
      verify_gitian_signature r = TriState.TriUnknown) ∧
    (r.contents_data_err = false → r.signature_data_err = false → r.verify_err = true →
      verify_gitian_signature r = TriState.TriFalse) ∧
    (r.contents_data_err = false → r.signature_data_err = false → r.verify_err = false →
      r.has_result = false → verify_gitian_signature r = TriState.TriFalse) ∧
    (r.contents_data_err = false → r.signature_data_err = false → r.verify_err = false →
      r.has_result = true →
      ((verify_gitian_signature r = TriState.TriTrue ↔ r.status = 0 ∧ r.summary_red = false) ∧
       (verify_gitian_signature r = TriState.TriFalse ↔ r.status = 0 ∧ r.summary_red = true) ∧
       (verify_gitian_signature r = TriState.TriUnknown ↔ r.status ≠ 0))) := by
  obtain ⟨c, sg, v, hr, st, red, val⟩ := r
  simp only [verify_gitian_signature]
  cases c <;> cases sg <;> cases v <;> cases hr <;> by_cases hst : st = 0 <;>
    cases red <;> cases val <;> simp_all

/-- Witness for C3_verify_signature: a clean run with status 0 and the RED bit
set verifies as TriFalse. -/
theorem C3_verify_signature_witness :
    verify_gitian_signature ⟨false, false, false, true, 0, true, false⟩ = TriState.TriFalse := by
  have h := C3_verify_signature ⟨false, false, false, true, 0, true, false⟩
  exact (h.2.2.2.2 rfl rfl rfl rfl).2.1.mpr ⟨rfl, rfl⟩

/-- C1: the signature-quorum stage succeeds iff, at the end of the per-user loop,
validGitianSigs is at least MIN_GITIAN_SIGS = 2 and bad_gitian_signature_found is
false; when any signature verified bad the driver leaves VerifyGitianSignatures
into BadGitianSigs regardless of the valid count, and when no bad signature was
found but fewer than 2 were valid it enters NotEnoughGitianSigs. -/
theorem C1_signature_quorum (imported : List String) (expected_hash filename : String)
    (users : List gitian_user_result) (ps : UpdaterPoll) :
    (gitian_verify_sigs_success_flag (fetch_gitian_sigs_loop imported expected_hash filename users) = true ↔
      2 ≤ (fetch_gitian_sigs_loop imported expected_hash filename users).validGitianSigs ∧
      (fetch_gitian_sigs_loop imported expected_hash filename users).bad_gitian_signature_found = false) ∧
    ((fetch_gitian_sigs_loop imported expected_hash filename users).bad_gitian_signature_found = true →
      verify_sigs_poll ps (fetch_gitian_sigs_loop imported expected_hash filename users)
        = some State.StateBadGitianSigs) ∧
    ((fetch_gitian_sigs_loop imported expected_hash filename users).bad_gitian_signature_found = false →
      (fetch_gitian_sigs_loop imported expected_hash filename users).validGitianSigs < 2 →
      verify_sigs_poll ps (fetch_gitian_sigs_loop imported expected_hash filename users)
        = some State.StateNotEnoughGitianSigs) ∧
    (gitian_verify_sigs_success_flag (fetch_gitian_sigs_loop imported expected_hash filename users) = true →
      verify_sigs_poll ps (fetch_gitian_sigs_loop imported expected_hash filename users)
        = some State.StateDownload) := by
  generalize fetch_gitian_sigs_loop imported expected_hash filename users = st
  obtain ⟨v, p, bad, fps⟩ := st
  refine ⟨?_, ?_, ?_, ?_⟩
  · cases bad <;>
      simp [gitian_verify_sigs_success_flag, MIN_GITIAN_SIGS]
  · intro hbad
    simp only at hbad
    subst hbad
    simp [verify_sigs_poll, updater_thread_step, gitian_verify_sigs_success_flag]
  · intro hbad hlt
    simp only at hbad hlt
    subst hbad
    simp [verify_sigs_poll, updater_thread_step, gitian_verify_sigs_success_flag,
      MIN_GITIAN_SIGS]
    omega
  · intro hs
    simp [verify_sigs_poll, updater_thread_step, hs]

/-- Witness for C1_signature_quorum: one user with a bad signature drives the FSM
to BadGitianSigs. -/
theorem C1_signature_quorum_witness :
    verify_sigs_poll
      ⟨State.StateNone, false, [], false, "", "", false, false, false, false, false, false,
        false, TriState.TriUnknown⟩
      (fetch_gitian_sigs_loop ["FPA"] "abc123" "f.tar.bz2"
        [⟨"u1", true, "", true, TriState.TriFalse, "FPX"⟩])
      = some State.StateBadGitianSigs := by
  have h := C1_signature_quorum ["FPA"] "abc123" "f.tar.bz2"
    [⟨"u1", true, "", true, TriState.TriFalse, "FPX"⟩]
    ⟨State.StateNone, false, [], false, "", "", false, false, false, false, false, false,
      false, TriState.TriUnknown⟩
  exact h.2.1 (by decide)

/-- The good-records search succeeds at index 0 of a cons exactly by the head
condition. -/
theorem good_records_at_zero (r : dns_query_result_t) (rest : List dns_query_result_t) :
    good_records_at (r :: rest) 0 =
      (dns_result_usable r && rest.any (fun r2 => dns_records_match r.records r2.records)) := rfl

/-- The good-records search at a successor index looks into the tail. -/
theorem good_records_at_succ (r : dns_query_result_t) (rest : List dns_query_result_t) (i : Nat) :
    good_records_at (r :: rest) (i + 1) = good_records_at rest i := rfl

/-- find_good_records returns none exactly when no index succeeds. -/
theorem find_good_records_none_iff (results : List dns_query_result_t) :
    find_good_records results = none ↔ ∀ i, good_records_at results i = false := by
  induction results with
  | nil =>
    simp only [find_good_records, true_iff]
    intro i
    simp [good_records_at]
  | cons r rest ih =>
    by_cases h : (dns_result_usable r
        && rest.any (fun r2 => dns_records_match r.records r2.records)) = true
    · simp only [find_good_records, if_pos h]
      constructor
      · intro hc
        exact absurd hc (by simp)
      · intro hall
        have := hall 0
        rw [good_records_at_zero] at this
        rw [h] at this
        cases this
    · simp only [find_good_records, if_neg h, ih]
      constructor
      · intro hall i
        cases i with
        | zero =>
          rw [good_records_at_zero]
          exact Bool.not_eq_true _ |>.mp h
        | succ k =>
          rw [good_records_at_succ]
          exact hall k
      · intro hall i
        have := hall (i + 1)
        rwa [good_records_at_succ] at this

/-- find_good_records returns the records at the least succeeding index. -/
theorem find_good_records_some (results : List dns_query_result_t) (g : List String) :
    find_good_records results = some g →
    ∃ i, good_records_at results i = true ∧ (∀ k, k < i → good_records_at results k = false) ∧
      g = records_at results i := by
  induction results with
  | nil => intro h; cases h
  | cons r rest ih =>
    intro h
    by_cases hc : (dns_result_usable r
        && rest.any (fun r2 => dns_records_match r.records r2.records)) = true
    · rw [find_good_records, if_pos hc] at h
      refine ⟨0, ?_, ?_, ?_⟩
      · rw [good_records_at_zero]; exact hc
      · intro k hk; omega
      · cases h; rfl
    · rw [find_good_records, if_neg hc] at h
      obtain ⟨i, h1, h2, h3⟩ := ih h
      refine ⟨i + 1, ?_, ?_, ?_⟩
      · rwa [good_records_at_succ]
      · intro k hk
        cases k with
        | zero =>
          rw [good_records_at_zero]
          exact Bool.not_eq_true _ |>.mp hc
        | succ k' =>
          rw [good_records_at_succ]
          exact h2 k' (by omega)
      · exact h3

/-- C2 (amended): with fewer than 2 usable domains the DNS stage fails with
dnsValid = TriFalse and no good records; otherwise dnsValid is TriTrue exactly
when some index i holds a usable result whose records match (set equality
ignoring order) the records of some strictly later index j, the availability and
validity of j being NOT checked by the code; in that case the good records are
those of the smallest such i. -/
theorem C2_dns_quorum (results : List dns_query_result_t) :
    ((results.filter dns_result_usable).length < 2 →
      load_txt_records_from_dns results = (TriState.TriFalse, [])) ∧
    (2 ≤ (results.filter dns_result_usable).length →
      (((load_txt_records_from_dns results).1 = TriState.TriTrue) ↔
        ∃ i, good_records_at results i = true) ∧
      (∀ i, good_records_at results i = true → (∀ k, k < i → good_records_at results k = false) →
        load_txt_records_from_dns results = (TriState.TriTrue, records_at results i))) := by
  constructor
  · intro hlt
    simp [load_txt_records_from_dns, hlt]
  · intro hge
    have hnlt : ¬ (results.filter dns_result_usable).length < 2 := by omega
    constructor
    · cases hf : find_good_records results with
      | none =>
        simp only [load_txt_records_from_dns, if_neg hnlt, hf]
        rw [find_good_records_none_iff] at hf
        simp only [show (TriState.TriFalse = TriState.TriTrue) = False from by simp]
        constructor
        · intro hc; cases hc
        · intro ⟨i, hi⟩
          rw [hf i] at hi
          cases hi
      | some g =>
        simp only [load_txt_records_from_dns, if_neg hnlt, hf]
        obtain ⟨i, h1, _, _⟩ := find_good_records_some results g hf
        simp only [true_iff]
        exact ⟨i, h1⟩
    · intro i hi hleast
      cases hf : find_good_records results with
      | none =>
        rw [find_good_records_none_iff] at hf
        rw [hf i] at hi
        cases hi
      | some g =>
        obtain ⟨i0, h1, h2, h3⟩ := find_good_records_some results g hf
        have hii : i = i0 := by
          rcases Nat.lt_trichotomy i i0 with hlt' | heq | hgt
          · rw [h2 i hlt'] at hi; cases hi
          · exact heq
          · rw [hleast i0 hgt] at h1; cases h1
        subst hii
        simp only [load_txt_records_from_dns, if_neg hnlt, hf, h3]

/-- C2 counterexample: four domains where only indices 0 and 2 are usable but
publish different record sets; index 1 (DNSSEC unavailable and invalid) carries
the same records as index 0, so the code accepts with dnsValid = TriTrue and
emits index 0's records, although no two usable domains match, contradicting the
claim that both members of the matching pair must be available and valid. -/
theorem C2_dns_quorum_counterexample :
    load_txt_records_from_dns
        [⟨["A"], true, true⟩, ⟨["A"], false, false⟩, ⟨["B"], true, true⟩, ⟨["B"], false, false⟩]
      = (TriState.TriTrue, ["A"]) ∧
    ¬ ∃ i j : Fin 4, i < j ∧
        dns_result_usable (([⟨["A"], true, true⟩, ⟨["A"], false, false⟩, ⟨["B"], true, true⟩,
          ⟨["B"], false, false⟩] : List dns_query_result_t).get i) = true ∧
        dns_result_usable (([⟨["A"], true, true⟩, ⟨["A"], false, false⟩, ⟨["B"], true, true⟩,
          ⟨["B"], false, false⟩] : List dns_query_result_t).get j) = true ∧
        dns_records_match
          (([⟨["A"], true, true⟩, ⟨["A"], false, false⟩, ⟨["B"], true, true⟩,
            ⟨["B"], false, false⟩] : List dns_query_result_t).get i).records
          (([⟨["A"], true, true⟩, ⟨["A"], false, false⟩, ⟨["B"], true, true⟩,
            ⟨["B"], false, false⟩] : List dns_query_result_t).get j).records = true := by
  exact ⟨by decide, by decide⟩

/-- Witness for C2_dns_quorum: on the four-domain example the smallest succeeding
index is 0 and its records are emitted with dnsValid = TriTrue. -/
theorem C2_dns_quorum_witness :
    load_txt_records_from_dns
        [⟨["A"], true, true⟩, ⟨["A"], false, false⟩, ⟨["B"], true, true⟩, ⟨["B"], false, false⟩]
      = (TriState.TriTrue, ["A"]) := by
  have h := C2_dns_quorum
    [⟨["A"], true, true⟩, ⟨["A"], false, false⟩, ⟨["B"], true, true⟩, ⟨["B"], false, false⟩]
  exact (h.2 (by decide)).2 0 (by decide) (fun k hk => absurd hk (Nat.not_lt_zero k))

/-- One iteration of the signature-quorum loop preserves the counter invariant. -/
theorem gitian_step_invariant (imported : List String) (expected_hash filename : String)
    (st : GitianLoopState) (u : gitian_user_result) (h : gitian_invariant st) :
    gitian_invariant (gitian_step imported expected_hash filename st u) := by
  obtain ⟨h1, h2, h3⟩ := h
  by_cases hacc : gitian_sig_accepted imported expected_hash filename st.fingerprints u = true
  · have hnm : ¬ u.fingerprint ∈ st.fingerprints := by
      have := hacc
      simp only [gitian_sig_accepted, Bool.and_eq_true, Bool.not_eq_true'] at this
      have hc := this.1.1.2
      simpa using hc
    refine ⟨?_, ?_, ?_⟩ <;> simp [gitian_step, hacc]
    · exact h1
    · exact ⟨hnm, h2⟩
    · omega
  · refine ⟨?_, ?_, ?_⟩ <;> simp [gitian_step, hacc]
    · exact h1
    · exact h2
    · omega

/-- The whole signature-quorum loop preserves the counter invariant. -/
theorem gitian_loop_invariant (imported : List String) (expected_hash filename : String) :
    ∀ (users : List gitian_user_result) (st0 : GitianLoopState), gitian_invariant st0 →
      gitian_invariant (users.foldl (gitian_step imported expected_hash filename) st0) := by
  intro users
  induction users with
  | nil => intro st0 h0; exact h0
  | cons u rest ih =>
    intro st0 h0
    exact ih _ (gitian_step_invariant imported expected_hash filename st0 u h0)

/-- Every iteration-boundary state of the signature-quorum loop satisfies the
counter invariant. -/
theorem gitian_boundary_states_invariant (imported : List String) (expected_hash filename : String) :
    ∀ (users : List gitian_user_result) (st0 : GitianLoopState), gitian_invariant st0 →
      ∀ st ∈ gitian_boundary_states imported expected_hash filename st0 users,
        gitian_invariant st := by
  intro users
  induction users with
  | nil =>
    intro st0 h0 st hst
    simp only [gitian_boundary_states, List.mem_singleton] at hst
    subst hst
    exact h0
  | cons u rest ih =>
    intro st0 h0 st hst
    simp only [gitian_boundary_states, List.mem_cons] at hst
    rcases hst with h | h
    · subst h; exact h0
    · exact ih _ (gitian_step_invariant imported expected_hash filename st0 u h0) st h

/-- The processed counter at any iteration boundary is bounded by the start value
plus the number of users. -/
theorem gitian_boundary_states_processed (imported : List String) (expected_hash filename : String) :
    ∀ (users : List gitian_user_result) (st0 : GitianLoopState),
      ∀ st ∈ gitian_boundary_states imported expected_hash filename st0 users,
        st.processedGitianSigs ≤ st0.processedGitianSigs + users.length := by
  intro users
  induction users with
  | nil =>
    intro st0 st hst
    simp only [gitian_boundary_states, List.mem_singleton] at hst
    subst hst
    simp
  | cons u rest ih =>
    intro st0 st hst
    simp only [gitian_boundary_states, List.mem_cons] at hst
    rcases hst with h | h
    · subst h; simp
    · have := ih (gitian_step imported expected_hash filename st0 u) st h
      simp only [gitian_step] at this
      simp only [List.length_cons]
      omega

/-- The loop processes every user exactly once. -/
theorem gitian_loop_processed (imported : List String) (expected_hash filename : String) :
    ∀ (users : List gitian_user_result) (st0 : GitianLoopState),
      (users.foldl (gitian_step imported expected_hash filename) st0).processedGitianSigs
        = st0.processedGitianSigs + users.length := by
  intro users
  induction users with
  | nil => intro st0; simp
  | cons u rest ih =>
    intro st0
    rw [List.foldl_cons, ih]
    simp only [gitian_step, List.length_cons]
    omega

/-- Bounds on every observable counter snapshot of the loop: validGitianSigs
never exceeds processedGitianSigs by more than one, and both stay within the
total number of users. -/
theorem gitian_counter_snapshots_bounds (imported : List String) (expected_hash filename : String) :
    ∀ (users : List gitian_user_result) (st0 : GitianLoopState), gitian_invariant st0 →
      ∀ s ∈ gitian_counter_snapshots imported expected_hash filename st0 users,
        s.1 ≤ s.2 + 1 ∧ s.2 ≤ st0.processedGitianSigs + users.length ∧
          s.1 ≤ st0.processedGitianSigs + users.length := by
  intro users
  induction users with
  | nil =>
    intro st0 _ s hs
    simp [gitian_counter_snapshots] at hs
  | cons u rest ih =>
    intro st0 h0 s hs
    have hvp := h0.2.2
    by_cases hacc : gitian_sig_accepted imported expected_hash filename st0.fingerprints u = true
    · simp only [gitian_counter_snapshots, hacc, if_true, List.cons_append, List.nil_append,
        List.mem_cons] at hs
      rcases hs with h | h | h
      · subst h
        refine ⟨by omega, by simp only [List.length_cons]; omega,
          by simp only [List.length_cons]; omega⟩
      · subst h
        simp only [gitian_step, hacc, if_true, List.length_cons]
        refine ⟨by omega, by omega, by omega⟩
      · have h1 := gitian_step_invariant imported expected_hash filename st0 u h0
        have := ih (gitian_step imported expected_hash filename st0 u) h1 s h
        simp only [gitian_step] at this
        simp only [List.length_cons]
        omega
    · have hacc' : gitian_sig_accepted imported expected_hash filename st0.fingerprints u = false :=
        Bool.not_eq_true _ |>.mp hacc
      simp only [gitian_counter_snapshots, hacc', if_false, Bool.false_eq_true,
        List.nil_append, List.mem_cons] at hs
      rcases hs with h | h
      · subst h
        simp only [gitian_step, hacc', if_false, Bool.false_eq_true, List.length_cons]
        refine ⟨by omega, by omega, by omega⟩
      · have h1 := gitian_step_invariant imported expected_hash filename st0 u h0
        have := ih (gitian_step imported expected_hash filename st0 u) h1 s h
        simp only [gitian_step] at this
        simp only [List.length_cons]
        omega

/-- C7 counterexample: with one user whose signature is accepted on the first
iteration, the snapshot taken right after validGitianSigs is incremented (and its
change event emitted) but before processedGitianSigs is incremented shows
validGitianSigs = 1 while processedGitianSigs = 0, violating the claimed
invariant validGitianSigs <= processedGitianSigs in a reachable Status state. -/
theorem C7_counters_counterexample :
    (1, 0) ∈ gitian_counter_snapshots ["FPA"] "abc123" "file.tar.bz2" ⟨0, 0, false, []⟩
      [⟨"u1", true, "abc123  file.tar.bz2", true, TriState.TriTrue, "FPA"⟩] ∧
    ¬ ((1 : Nat) ≤ 0) := by
  exact ⟨by decide, by decide⟩

/-- C7 (amended): throughout the per-user loop (totalGitianSigs being the user
count set before the loop), at every iteration boundary
0 <= validGitianSigs <= processedGitianSigs <= totalGitianSigs holds and
validGitianSigs counts exactly the distinct accepted fingerprints (so each
fingerprint is counted at most once per run); in the transient mid-iteration
state after accepting a signature, validGitianSigs may exceed
processedGitianSigs by exactly one but never exceeds totalGitianSigs. -/
theorem C7_counters (imported : List String) (expected_hash filename : String)
    (users : List gitian_user_result) :
    (∀ st ∈ gitian_boundary_states imported expected_hash filename ⟨0, 0, false, []⟩ users,
      st.validGitianSigs ≤ st.processedGitianSigs ∧
      st.processedGitianSigs ≤ users.length ∧
      st.validGitianSigs = st.fingerprints.length ∧ st.fingerprints.Nodup) ∧
    (∀ s ∈ gitian_counter_snapshots imported expected_hash filename ⟨0, 0, false, []⟩ users,
      s.1 ≤ s.2 + 1 ∧ s.2 ≤ users.length ∧ s.1 ≤ users.length) ∧
    (fetch_gitian_sigs_loop imported expected_hash filename users).processedGitianSigs
      = users.length ∧
    (fetch_gitian_sigs_loop imported expected_hash filename users).validGitianSigs
      = (fetch_gitian_sigs_loop imported expected_hash filename users).fingerprints.length ∧
    (fetch_gitian_sigs_loop imported expected_hash filename users).fingerprints.Nodup := by
  have hinv0 : gitian_invariant ⟨0, 0, false, []⟩ := ⟨rfl, List.nodup_nil, Nat.le_refl 0⟩
  have hfinal := gitian_loop_invariant imported expected_hash filename users ⟨0, 0, false, []⟩ hinv0
  refine ⟨?_, ?_, ?_, hfinal.1, hfinal.2.1⟩
  · intro st hst
    have h1 := gitian_boundary_states_invariant imported expected_hash filename users
      ⟨0, 0, false, []⟩ hinv0 st hst
    have h2 := gitian_boundary_states_processed imported expected_hash filename users
      ⟨0, 0, false, []⟩ st hst
    exact ⟨h1.2.2, by simpa using h2, h1.1, h1.2.1⟩
  · intro s hs
    have := gitian_counter_snapshots_bounds imported expected_hash filename users
      ⟨0, 0, false, []⟩ hinv0 s hs
    simpa using this
  · have := gitian_loop_processed imported expected_hash filename users ⟨0, 0, false, []⟩
    simpa using this

/-- Witness for C7_counters: on the single accepted-user run the loop ends with
processedGitianSigs = 1 and the boundary state after the iteration satisfies
validGitianSigs <= processedGitianSigs. -/
theorem C7_counters_witness :
    (fetch_gitian_sigs_loop ["FPA"] "abc123" "file.tar.bz2"
      [⟨"u1", true, "abc123  file.tar.bz2", true, TriState.TriTrue, "FPA"⟩]).processedGitianSigs
      = 1 ∧
    (1 : Nat) ≤ 1 := by
  have h := C7_counters ["FPA"] "abc123" "file.tar.bz2"
    [⟨"u1", true, "abc123  file.tar.bz2", true, TriState.TriTrue, "FPA"⟩]
  refine ⟨h.2.2.1, ?_⟩
  have hmem : (⟨1, 1, false, ["FPA"]⟩ : GitianLoopState) ∈
      gitian_boundary_states ["FPA"] "abc123" "file.tar.bz2" ⟨0, 0, false, []⟩
        [⟨"u1", true, "abc123  file.tar.bz2", true, TriState.TriTrue, "FPA"⟩] := by decide
  exact (h.1 ⟨1, 1, false, ["FPA"]⟩ hmem).1

/-- The record loop leaves the stored version, hash and a false abort flag on an
empty record list. -/
theorem process_version_loop_nil (software buildtag v h : String) (found : Bool) :
    process_version_loop software buildtag [] found v h = (v, h, false) := rfl

/-- Unfolding of the record loop on a record that does not survive the filter. -/
theorem process_version_loop_cons_none {software buildtag record : String}
    {rest : List String} {found : Bool} {v h : String}
    (hp : parse_update_record software buildtag record = none) :
    process_version_loop software buildtag (record :: rest) found v h =
      process_version_loop software buildtag rest found v h := by
  simp [process_version_loop, hp]

/-- Unfolding of the record loop on a surviving record before any was found. -/
theorem process_version_loop_cons_some_false {software buildtag record : String}
    {rest : List String} {v h f2 f3 : String}
    (hp : parse_update_record software buildtag record = some (f2, f3)) :
    process_version_loop software buildtag (record :: rest) false v h =
      process_version_loop software buildtag rest true f2 f3 := by
  simp [process_version_loop, hp]

/-- Unfolding of the record loop on a surviving record once one was found. -/
theorem process_version_loop_cons_some_true {software buildtag record : String}
    {rest : List String} {v h f2 f3 : String}
    (hp : parse_update_record software buildtag record = some (f2, f3)) :
    process_version_loop software buildtag (record :: rest) true v h =
      (if 0 < vercmp v f2 then process_version_loop software buildtag rest true v h
       else if vercmp v f2 = 0 ∧ h ≠ f3 then ("", h, true)
       else process_version_loop software buildtag rest true f2 f3) := by
  simp [process_version_loop, hp]

/-- The surviving records of a cons whose head does not survive. -/
theorem surviving_records_cons_none {software buildtag record : String} {rest : List String}
    (hp : parse_update_record software buildtag record = none) :
    surviving_records software buildtag (record :: rest) =
      surviving_records software buildtag rest := by
  simp [surviving_records, List.filterMap_cons, hp]

/-- The surviving records of a cons whose head survives. -/
theorem surviving_records_cons_some {software buildtag record : String} {rest : List String}
    {f2 f3 : String} (hp : parse_update_record software buildtag record = some (f2, f3)) :
    surviving_records software buildtag (record :: rest) =
      (f2, f3) :: surviving_records software buildtag rest := by
  simp [surviving_records, List.filterMap_cons, hp]

/-- Whenever the record loop ends by the ambiguity early-return, the returned
version is empty. -/
theorem process_version_loop_abort_ver (software buildtag : String) :
    ∀ (records : List String) (found : Bool) (v h v' h' : String),
      process_version_loop software buildtag records found v h = (v', h', true) → v' = "" := by
  intro records
  induction records with
  | nil =>
    intro found v h v' h' heq
    rw [process_version_loop_nil] at heq
    have := congrArg (fun t => t.2.2) heq
    simp at this
  | cons record rest ih =>
    intro found v h v' h' heq
    cases hp : parse_update_record software buildtag record with
    | none =>
      rw [process_version_loop_cons_none hp] at heq
      exact ih found v h v' h' heq
    | some p =>
      obtain ⟨f2, f3⟩ := p
      cases found with
      | false =>
        rw [process_version_loop_cons_some_false hp] at heq
        exact ih true f2 f3 v' h' heq
      | true =>
        rw [process_version_loop_cons_some_true hp] at heq
        by_cases h1 : 0 < vercmp v f2
        · rw [if_pos h1] at heq
          exact ih true v h v' h' heq
        · rw [if_neg h1] at heq
          by_cases h2 : vercmp v f2 = 0 ∧ h ≠ f3
          · rw [if_pos h2] at heq
            exact (congrArg (fun t => t.1) heq).symm
          · rw [if_neg h2] at heq
            exact ih true f2 f3 v' h' heq

/-- Once a record was found, a non-aborting run of the record loop returns either
the stored pair or a surviving pair, never below the stored version, and
vercmp-maximal among the surviving records it scanned. -/
theorem process_version_loop_max (software buildtag : String) :
    ∀ (records : List String) (v h v' h' : String),
      process_version_loop software buildtag records true v h = (v', h', false) →
      ((v', h') = (v, h) ∨ (v', h') ∈ surviving_records software buildtag records) ∧
      0 ≤ vercmp v' v ∧
      ∀ p ∈ surviving_records software buildtag records, 0 ≤ vercmp v' p.1 := by
  intro records
  induction records with
  | nil =>
    intro v h v' h' heq
    rw [process_version_loop_nil] at heq
    have h1 := congrArg (fun t => t.1) heq
    have h2 := congrArg (fun t => t.2.1) heq
    simp only at h1 h2
    subst h1; subst h2
    refine ⟨Or.inl rfl, ?_, ?_⟩
    · rw [vercmp_refl]
    · intro p hp
      simp [surviving_records] at hp
  | cons record rest ih =>
    intro v h v' h' heq
    cases hp : parse_update_record software buildtag record with
    | none =>
      rw [process_version_loop_cons_none hp] at heq
      rw [surviving_records_cons_none hp]
      exact ih v h v' h' heq
    | some p =>
      obtain ⟨f2, f3⟩ := p
      rw [surviving_records_cons_some hp]
      rw [process_version_loop_cons_some_true hp] at heq
      by_cases h1 : 0 < vercmp v f2
      · rw [if_pos h1] at heq
        obtain ⟨hm, hge, hall⟩ := ih v h v' h' heq
        refine ⟨?_, hge, ?_⟩
        · rcases hm with hm | hm
          · exact Or.inl hm
          · exact Or.inr (List.mem_cons_of_mem _ hm)
        · intro p hpm
          rcases List.mem_cons.mp hpm with hpm | hpm
          · subst hpm
            exact vercmp_ge_trans v' v f2 hge (by omega)
          · exact hall p hpm
      · rw [if_neg h1] at heq
        by_cases h2 : vercmp v f2 = 0 ∧ h ≠ f3
        · rw [if_pos h2] at heq
          have := congrArg (fun t => t.2.2) heq
          simp at this
        · rw [if_neg h2] at heq
          obtain ⟨hm, hge, hall⟩ := ih f2 f3 v' h' heq
          have hf2v : 0 ≤ vercmp f2 v := vercmp_ge_of_not_lt v f2 h1
          refine ⟨?_, vercmp_ge_trans v' f2 v hge hf2v, ?_⟩
          · rcases hm with hm | hm
            · exact Or.inr (by rw [hm]; exact List.mem_cons_self _ _)
            · exact Or.inr (List.mem_cons_of_mem _ hm)
          · intro p hpm
            rcases List.mem_cons.mp hpm with hpm | hpm
            · subst hpm
              exact hge
            · exact hall p hpm

/-- A non-aborting run of the whole record loop that selects a nonempty version
returns a surviving pair that is vercmp-maximal among all surviving records. -/
theorem process_version_loop_start (software buildtag : String) :
    ∀ (records : List String) (v' h' : String),
      process_version_loop software buildtag records false "" "" = (v', h', false) →
      v' ≠ "" →
      (v', h') ∈ surviving_records software buildtag records ∧
      ∀ p ∈ surviving_records software buildtag records, 0 ≤ vercmp v' p.1 := by
  intro records
  induction records with
  | nil =>
    intro v' h' heq hne
    rw [process_version_loop_nil] at heq
    have h1 := congrArg (fun t => t.1) heq
    simp only at h1
    exact absurd h1.symm hne
  | cons record rest ih =>
    intro v' h' heq hne
    cases hp : parse_update_record software buildtag record with
    | none =>
      rw [process_version_loop_cons_none hp] at heq
      rw [surviving_records_cons_none hp]
      exact ih v' h' heq hne
    | some p =>
      obtain ⟨f2, f3⟩ := p
      rw [surviving_records_cons_some hp]
      rw [process_version_loop_cons_some_false hp] at heq
      obtain ⟨hm, hge, hall⟩ := process_version_loop_max software buildtag rest f2 f3 v' h' heq
      constructor
      · rcases hm with hm | hm
        · rw [hm]; exact List.mem_cons_self _ _
        · exact List.mem_cons_of_mem _ hm
      · intro p hpm
        rcases List.mem_cons.mp hpm with hpm | hpm
        · subst hpm
          exact hge
        · exact hall p hpm

/-- An aborting run of the record loop (after a record was found) always stems
from a vercmp-tie with differing hashes between the stored pair and a surviving
record. -/
theorem process_version_loop_abort_pair (software buildtag : String) :
    ∀ (records : List String) (v h v' h' : String),
      process_version_loop software buildtag records true v h = (v', h', true) →
      ∃ q1 q2 : String × String,
        (q1 = (v, h) ∨ q1 ∈ surviving_records software buildtag records) ∧
        q2 ∈ surviving_records software buildtag records ∧
        vercmp q1.1 q2.1 = 0 ∧ q1.2 ≠ q2.2 := by
  intro records
  induction records with
  | nil =>
    intro v h v' h' heq
    rw [process_version_loop_nil] at heq
    have := congrArg (fun t => t.2.2) heq
    simp at this
  | cons record rest ih =>
    intro v h v' h' heq
    cases hp : parse_update_record software buildtag record with
    | none =>
      rw [process_version_loop_cons_none hp] at heq
      obtain ⟨q1, q2, hq1, hq2, hc, hh⟩ := ih v h v' h' heq
      rw [surviving_records_cons_none hp]
      exact ⟨q1, q2, hq1, hq2, hc, hh⟩
    | some p =>
      obtain ⟨f2, f3⟩ := p
      rw [surviving_records_cons_some hp]
      rw [process_version_loop_cons_some_true hp] at heq
      by_cases h1 : 0 < vercmp v f2
      · rw [if_pos h1] at heq
        obtain ⟨q1, q2, hq1, hq2, hc, hh⟩ := ih v h v' h' heq
        exact ⟨q1, q2, Or.imp_right (List.mem_cons_of_mem _) hq1,
          List.mem_cons_of_mem _ hq2, hc, hh⟩
      · rw [if_neg h1] at heq
        by_cases h2 : vercmp v f2 = 0 ∧ h ≠ f3
        · refine ⟨(v, h), (f2, f3), Or.inl rfl, List.mem_cons_self _ _, h2.1, h2.2⟩
        · rw [if_neg h2] at heq
          obtain ⟨q1, q2, hq1, hq2, hc, hh⟩ := ih f2 f3 v' h' heq
          refine ⟨q1, q2, ?_, List.mem_cons_of_mem _ hq2, hc, hh⟩
          rcases hq1 with hq1 | hq1
          · exact Or.inr (by rw [hq1]; exact List.mem_cons_self _ _)
          · exact Or.inr (List.mem_cons_of_mem _ hq1)

/-- An aborting run of the whole record loop stems from two surviving records
with vercmp-equal versions and different hashes. -/
theorem process_version_loop_abort_pair_start (software buildtag : String) :
    ∀ (records : List String) (v' h' : String),
      process_version_loop software buildtag records false "" "" = (v', h', true) →
      ∃ q1 ∈ surviving_records software buildtag records,
        ∃ q2 ∈ surviving_records software buildtag records,
          vercmp q1.1 q2.1 = 0 ∧ q1.2 ≠ q2.2 := by
  intro records
  induction records with
  | nil =>
    intro v' h' heq
    rw [process_version_loop_nil] at heq
    have := congrArg (fun t => t.2.2) heq
    simp at this
  | cons record rest ih =>
    intro v' h' heq
    cases hp : parse_update_record software buildtag record with
    | none =>
      rw [process_version_loop_cons_none hp] at heq
      obtain ⟨q1, hq1, q2, hq2, hc, hh⟩ := ih v' h' heq
      rw [surviving_records_cons_none hp]
      exact ⟨q1, hq1, q2, hq2, hc, hh⟩
    | some p =>
      obtain ⟨f2, f3⟩ := p
      rw [surviving_records_cons_some hp]
      rw [process_version_loop_cons_some_false hp] at heq
      obtain ⟨q1, q2, hq1, hq2, hc, hh⟩ :=
        process_version_loop_abort_pair software buildtag rest f2 f3 v' h' heq
      refine ⟨q1, ?_, q2, List.mem_cons_of_mem _ hq2, hc, hh⟩
      rcases hq1 with hq1 | hq1
      · rw [hq1]; exact List.mem_cons_self _ _
      · exact List.mem_cons_of_mem _ hq1

/-- C5 counterexample: three surviving records where the first carries the
highest version 0.18.2 and the two others tie at 0.18.1 with different hashes;
the claim requires selection to abort with an empty selectedVersion, but the code
selects 0.18.2, because the ambiguity check only fires against the stored
running maximum. -/
theorem C5_version_selection_counterexample :
    (process_version "monero" "linux-x64"
      ["monero:linux-x64:0.18.2:aaaaaaaaaaaaaaaaaaaaaaaaaaaaaaaaaaaaaaaaaaaaaaaaaaaaaaaaaaaaaaaa",
       "monero:linux-x64:0.18.1:bbbbbbbbbbbbbbbbbbbbbbbbbbbbbbbbbbbbbbbbbbbbbbbbbbbbbbbbbbbbbbbb",
       "monero:linux-x64:0.18.1:cccccccccccccccccccccccccccccccccccccccccccccccccccccccccccccccc"]).1
      = "0.18.2" ∧
    ("0.18.1", "bbbbbbbbbbbbbbbbbbbbbbbbbbbbbbbbbbbbbbbbbbbbbbbbbbbbbbbbbbbbbbbb") ∈
      surviving_records "monero" "linux-x64"
      ["monero:linux-x64:0.18.2:aaaaaaaaaaaaaaaaaaaaaaaaaaaaaaaaaaaaaaaaaaaaaaaaaaaaaaaaaaaaaaaa",
       "monero:linux-x64:0.18.1:bbbbbbbbbbbbbbbbbbbbbbbbbbbbbbbbbbbbbbbbbbbbbbbbbbbbbbbbbbbbbbbb",
       "monero:linux-x64:0.18.1:cccccccccccccccccccccccccccccccccccccccccccccccccccccccccccccccc"] ∧
    ("0.18.1", "cccccccccccccccccccccccccccccccccccccccccccccccccccccccccccccccc") ∈
      surviving_records "monero" "linux-x64"
      ["monero:linux-x64:0.18.2:aaaaaaaaaaaaaaaaaaaaaaaaaaaaaaaaaaaaaaaaaaaaaaaaaaaaaaaaaaaaaaaa",
       "monero:linux-x64:0.18.1:bbbbbbbbbbbbbbbbbbbbbbbbbbbbbbbbbbbbbbbbbbbbbbbbbbbbbbbbbbbbbbbb",
       "monero:linux-x64:0.18.1:cccccccccccccccccccccccccccccccccccccccccccccccccccccccccccccccc"] ∧
    ("bbbbbbbbbbbbbbbbbbbbbbbbbbbbbbbbbbbbbbbbbbbbbbbbbbbbbbbbbbbbbbbb" : String)
      ≠ "cccccccccccccccccccccccccccccccccccccccccccccccccccccccccccccccc" ∧
    ("0.18.2" : String) ≠ "" := by
  refine ⟨by decide, by decide, by decide, by decide, by decide⟩

/-- C5 (amended): when version selection publishes a nonempty selectedVersion,
that version and expectedHash come from a surviving record whose version is
vercmp-maximal among all surviving records; selection aborts with an empty
selectedVersion only when two surviving records carry vercmp-equal versions with
different hashes, and such a tie aborts only when it involves the stored running
maximum, so equal-version different-hash records below the running maximum do
not abort selection. -/
theorem C5_version_selection (software buildtag : String) (records : List String) :
    (∀ v eh, process_version software buildtag records = (v, eh) → v ≠ "" →
      ∃ h, eh = some h ∧ (v, h) ∈ surviving_records software buildtag records ∧
        ∀ p ∈ surviving_records software buildtag records, 0 ≤ vercmp v p.1) ∧
    ((process_version_loop software buildtag records false "" "").2.2 = true →
      ∃ q1 ∈ surviving_records software buildtag records,
        ∃ q2 ∈ surviving_records software buildtag records,
          vercmp q1.1 q2.1 = 0 ∧ q1.2 ≠ q2.2) := by
  constructor
  · intro v eh hpv hne
    rcases hout : process_version_loop software buildtag records false "" "" with ⟨v0, h0, flag⟩
    have hv : v = v0 := by
      have := congrArg (fun t => t.1) hpv
      simp only [process_version, hout] at this
      exact this.symm
    cases flag with
    | true =>
      have := process_version_loop_abort_ver software buildtag records false "" "" v0 h0 hout
      rw [hv, this] at hne
      exact absurd rfl hne
    | false =>
      subst hv
      obtain ⟨hmem, hall⟩ :=
        process_version_loop_start software buildtag records v h0 hout hne
      refine ⟨h0, ?_, hmem, hall⟩
      have := congrArg (fun t => t.2) hpv
      simp only [process_version, hout] at this
      rw [← this]
      simp [hne]
  · intro hab
    rcases hout : process_version_loop software buildtag records false "" "" with ⟨v0, h0, flag⟩
    rw [hout] at hab
    simp only at hab
    subst hab
    exact process_version_loop_abort_pair_start software buildtag records v0 h0 hout

/-- Witness for C5_version_selection on the counterexample record list: the
selected pair (0.18.2, its hash) is a surviving record and vercmp-maximal. -/
theorem C5_version_selection_witness :
    ∃ h, (some "aaaaaaaaaaaaaaaaaaaaaaaaaaaaaaaaaaaaaaaaaaaaaaaaaaaaaaaaaaaaaaaa" : Option String)
        = some h ∧
      ("0.18.2", h) ∈ surviving_records "monero" "linux-x64"
        ["monero:linux-x64:0.18.2:aaaaaaaaaaaaaaaaaaaaaaaaaaaaaaaaaaaaaaaaaaaaaaaaaaaaaaaaaaaaaaaa",
         "monero:linux-x64:0.18.1:bbbbbbbbbbbbbbbbbbbbbbbbbbbbbbbbbbbbbbbbbbbbbbbbbbbbbbbbbbbbbbbb",
         "monero:linux-x64:0.18.1:cccccccccccccccccccccccccccccccccccccccccccccccccccccccccccccccc"] ∧
      ∀ p ∈ surviving_records "monero" "linux-x64"
        ["monero:linux-x64:0.18.2:aaaaaaaaaaaaaaaaaaaaaaaaaaaaaaaaaaaaaaaaaaaaaaaaaaaaaaaaaaaaaaaa",
         "monero:linux-x64:0.18.1:bbbbbbbbbbbbbbbbbbbbbbbbbbbbbbbbbbbbbbbbbbbbbbbbbbbbbbbbbbbbbbbb",
         "monero:linux-x64:0.18.1:cccccccccccccccccccccccccccccccccccccccccccccccccccccccccccccccc"],
        0 ≤ vercmp "0.18.2" p.1 := by
  exact (C5_version_selection "monero" "linux-x64"
    ["monero:linux-x64:0.18.2:aaaaaaaaaaaaaaaaaaaaaaaaaaaaaaaaaaaaaaaaaaaaaaaaaaaaaaaaaaaaaaaa",
     "monero:linux-x64:0.18.1:bbbbbbbbbbbbbbbbbbbbbbbbbbbbbbbbbbbbbbbbbbbbbbbbbbbbbbbbbbbbbbbb",
     "monero:linux-x64:0.18.1:cccccccccccccccccccccccccccccccccccccccccccccccccccccccccccccccc"]).1
    "0.18.2"
    (some "aaaaaaaaaaaaaaaaaaaaaaaaaaaaaaaaaaaaaaaaaaaaaaaaaaaaaaaaaaaaaaaa")
    (by decide) (by decide)
